import Mathlib

/-!
Verification of the GimbalLock simulation driver.

This file gives a shallow embedding of the simulation driver of
`scripts/gyro_sim.py` (the `run_simulator` loop) and of the telemetry
recorder `src/joint_logger.py` (`JointLogger`), and proves the spec's
claims about them.

Modelling conventions:
* Real-valued quantities (times, joint positions and velocities) are
  modelled as rationals, i.e. the embedding uses exact arithmetic.
* The external physics engine (`sim.step()` together with the engine
  state read back through `gyro.data`) is modelled as a parameter
  `engineStep : Nat -> EngState -> Option EngState`; `none` models a
  fatal exception raised by the engine call, which the driver does not
  catch.  The host (`simulation_app.is_running()`) is modelled as a
  parameter `host : Nat -> Bool`, indexed by the loop iteration at
  which it is polled.
* Python `int()` applied to a nonnegative real truncates toward zero;
  it is modelled by `pyInt` below.
* The driver loop is modelled with explicit fuel; the `fuelOut` exit
  kind marks fuel exhaustion and occurs in no claim (claims either
  supply enough fuel or hold at every exit).
-/

namespace GimbalLock

/-- Python `int()` on a rational: truncation toward zero.  On the
normalized representation `num / den` this is t-division of the
numerator by the denominator. -/
def pyInt (q : ℚ) : ℤ := Int.tdiv q.num (q.den : ℤ)

/-- State of the external physics engine visible to the driver: joint
positions and velocities, indexed by environment instance and joint
index (`gyro.data.joint_pos` / `gyro.data.joint_vel`, shape
`[num_envs, num_joints]`). -/
structure EngState where
  pos : ℕ → ℕ → ℚ
  vel : ℕ → ℕ → ℚ

/-- The `JointLogger` of `src/joint_logger.py`: pre-allocated dense
buffers of shape `[num_envs, num_steps, num_joints]`, plus the metadata
computed in `__init__`.  Buffers are modelled as total functions
`env -> time -> joint -> value`. -/
structure JointLogger where
  num_envs : ℕ
  num_joints : ℕ
  num_steps : ℕ
  position_buffer : ℕ → ℕ → ℕ → ℚ
  velocity_buffer : ℕ → ℕ → ℕ → ℚ

namespace JointLogger

/-- Constructor `JointLogger.__init__`: `num_steps = int(duration / sim_dt)`, and
both buffers are zero-initialized (`torch.zeros`). -/
def init (num_envs num_joints : ℕ) (sim_dt duration : ℚ) : JointLogger :=
  { num_envs := num_envs
    num_joints := num_joints
    num_steps := (pyInt (duration / sim_dt)).toNat
    position_buffer := fun _ _ _ => 0
    velocity_buffer := fun _ _ _ => 0 }

/-- Method `JointLogger.log(time_index)`: bounds check
`time_index < 0 or time_index >= self.num_steps` prints a warning and
returns without touching the buffers; otherwise the current joint data
(all environments, all joints) is copied into both buffers at
`time_index`.  The returned `Bool` is `true` exactly when the warning
was emitted.  The function is total: it never raises. -/
def log (L : JointLogger) (time_index : ℤ) (pos vel : ℕ → ℕ → ℚ) :
    JointLogger × Bool :=
  if time_index < 0 ∨ (L.num_steps : ℤ) ≤ time_index then
    (L, true)
  else
    ({ L with
        position_buffer := fun e t j =>
          if t = time_index.toNat then pos e j else L.position_buffer e t j
        velocity_buffer := fun e t j =>
          if t = time_index.toNat then vel e j else L.velocity_buffer e t j },
      false)

end JointLogger

/-- One recorded call to `JointLogger.log`: the index passed and the
joint data visible at that moment. -/
structure LogCall where
  idx : ℤ
  pos : ℕ → ℕ → ℚ
  vel : ℕ → ℕ → ℚ

/-- Replay a sequence of `log` calls against a logger (warnings are
discarded, as in the source, where the warning is only printed). -/
def logAll (L : JointLogger) (ws : List LogCall) : JointLogger :=
  ws.foldl (fun acc w => (acc.log w.idx w.pos w.vel).1) L

/-- The run parameters of `gyro_sim.py` (`SIM_DT`, `DURATION`, `FPS`,
and `INIT_JOINT_VEL["joint2"]`, the velocity re-asserted on joint
index 2 every step). -/
structure SimConfig where
  sim_dt : ℚ
  duration : ℚ
  fps : ℚ
  target_vel : ℚ

/-- Observable actions of one loop iteration, in program order:
the override write (`write_joint_velocity_to_sim`, recorded with the
value of `physics_step` at the moment it is computed), the engine step
(`sim.step()`, recorded with the pre-increment `physics_step`), the
telemetry call (`joint_logger.log(i)`), and a video frame capture
(`record_frame`). -/
inductive Event where
  | override (step : ℕ)
  | engineStep (step : ℕ)
  | log (idx : ℤ)
  | capture
  deriving DecidableEq

/-- Is this event a frame capture? -/
def Event.isCapture : Event → Bool
  | Event.capture => true
  | _ => false

/-- The trace with frame captures removed: only the override / engine
step / telemetry events, in program order. -/
def coreTrace (tr : List Event) : List Event :=
  tr.filter (fun e => ! e.isCapture)

/-- The driver's mutable state at a loop head of `run_simulator`:
the four local counters initialized in lines 144-148 of
`gyro_sim.py`, the engine state, the optional logger, and the event
trace (instrumentation recording which calls were made, in order). -/
structure DriverState where
  physics_step : ℕ
  sim_time : ℚ
  next_frame_time : ℚ
  frames_captured : ℕ
  eng : EngState
  logger : Option JointLogger
  trace : List Event

/-- Outcome of one loop body: `ok` is normal fall-through to the next
iteration, `fail` is a fatal exception from `sim.step()` propagating
out of the loop (carrying the state at the moment of the raise). -/
inductive StepOut where
  | ok (st : DriverState)
  | fail (st : DriverState)

/-- Project the carried state out of a `StepOut`. -/
def StepOut.state : StepOut → DriverState
  | StepOut.ok st => st
  | StepOut.fail st => st

/-- How the run ended: the loop condition failed because `sim_time`
reached `duration` (`normal`), the host reported not-running
(`cancelled`), an engine exception escaped (`fatal`), or the model ran
out of fuel (`fuelOut`, a model artifact only). -/
inductive ExitKind where
  | normal
  | cancelled
  | fatal
  | fuelOut
  deriving DecidableEq

/-- Result of a run: exit kind, final driver state, and how many times
`video_writer.close()` was executed. -/
structure RunResult where
  exit : ExitKind
  state : DriverState
  closeCount : ℕ

/-- Lines 152-153: `joint_vel = gyro.data.joint_vel.clone();
joint_vel[:, 2] = INIT_JOINT_VEL["joint2"]` — every environment's
joint-2 velocity is replaced by the configured target. -/
def overrideVel (tv : ℚ) (s : EngState) : EngState :=
  { s with vel := fun e j => if j = 2 then tv else s.vel e j }

/-- Lines 152-154 of the loop body: compute the overridden velocity
vector and write it back to the engine. -/
def applyOverride (cfg : SimConfig) (st : DriverState) : DriverState :=
  { st with
      eng := overrideVel cfg.target_vel st.eng
      trace := st.trace ++ [Event.override st.physics_step] }

/-- Lines 157-159: `sim.step(); physics_step += 1; sim_time += SIM_DT`,
with `eng'` the engine state read back after the step (and after the
`update` calls of lines 162-165, which refresh the data views). -/
def advanceClock (cfg : SimConfig) (st : DriverState) (eng' : EngState) :
    DriverState :=
  { st with
      eng := eng'
      physics_step := st.physics_step + 1
      sim_time := st.sim_time + cfg.sim_dt
      trace := st.trace ++ [Event.engineStep st.physics_step] }

/-- Lines 168-169: `if joint_logger is not None:
joint_logger.log(physics_step - 1)`. -/
def doLog (st : DriverState) : DriverState :=
  match st.logger with
  | none => st
  | some L =>
      { st with
          logger := some (L.log ((st.physics_step : ℤ) - 1) st.eng.pos st.eng.vel).1
          trace := st.trace ++ [Event.log ((st.physics_step : ℤ) - 1)] }

/-- Lines 172-175: `if sim_time >= next_frame_time and video_writer is
not None: record_frame(...); frames_captured += 1;
next_frame_time += 1.0 / FPS`. -/
def doFrame (cfg : SimConfig) (video_writer : Bool) (st : DriverState) :
    DriverState :=
  if st.next_frame_time ≤ st.sim_time ∧ video_writer = true then
    { st with
        frames_captured := st.frames_captured + 1
        next_frame_time := st.next_frame_time + 1 / cfg.fps
        trace := st.trace ++ [Event.capture] }
  else st

/-- One full loop body of `run_simulator` (lines 151-175), entered
after the loop condition held. -/
def stepOnce (cfg : SimConfig) (engineStep : ℕ → EngState → Option EngState)
    (video_writer : Bool) (st : DriverState) : StepOut :=
  let st1 := applyOverride cfg st
  match engineStep st.physics_step st1.eng with
  | none => StepOut.fail st1
  | some eng' => StepOut.ok (doFrame cfg video_writer (doLog (advanceClock cfg st1 eng')))

/-- The `while simulation_app.is_running() and sim_time < DURATION`
loop (line 150) together with the post-loop cleanup (lines 177-179):
when the loop exits by its condition — in either way — the video
writer, if attached, is closed exactly once; when an engine exception
escapes, no cleanup runs (there is no try/finally around the loop in
`run_simulator`). -/
def driverLoop (cfg : SimConfig) (host : ℕ → Bool)
    (engineStep : ℕ → EngState → Option EngState) (video_writer : Bool) :
    ℕ → ℕ → DriverState → RunResult
  | 0, _, st => { exit := ExitKind.fuelOut, state := st, closeCount := 0 }
  | fuel + 1, iter, st =>
    if host iter = true then
      if st.sim_time < cfg.duration then
        match stepOnce cfg engineStep video_writer st with
        | StepOut.fail st1 => { exit := ExitKind.fatal, state := st1, closeCount := 0 }
        | StepOut.ok st1 => driverLoop cfg host engineStep video_writer fuel (iter + 1) st1
      else
        { exit := ExitKind.normal, state := st
          closeCount := if video_writer = true then 1 else 0 }
    else
      { exit := ExitKind.cancelled, state := st
        closeCount := if video_writer = true then 1 else 0 }

/-- Loop-local state as initialized in lines 144-148. -/
def initState (eng : EngState) (logger : Option JointLogger) : DriverState :=
  { physics_step := 0
    sim_time := 0
    next_frame_time := 0
    frames_captured := 0
    eng := eng
    logger := logger
    trace := [] }

/-- Lines 119-129: the pre-loop write of the initial joint state
(`joint_pos[:, 1]`, `joint_pos[:, 2]` and `joint_vel[:, 2]` are set
from the global initial conditions and written to the simulation). -/
def initialJointWrite (cfg : SimConfig) (init_pos1 init_pos2 : ℚ)
    (s : EngState) : EngState :=
  { pos := fun e j =>
      if j = 1 then init_pos1 else if j = 2 then init_pos2 else s.pos e j
    vel := fun e j => if j = 2 then cfg.target_vel else s.vel e j }

/-- Function `run_simulator`: initial joint-state write, then the driver loop
from the freshly initialized counters. -/
def run_simulator (cfg : SimConfig) (init_pos1 init_pos2 : ℚ)
    (host : ℕ → Bool) (engineStep : ℕ → EngState → Option EngState)
    (video_writer : Bool) (logger : Option JointLogger) (eng0 : EngState)
    (fuel : ℕ) : RunResult :=
  driverLoop cfg host engineStep video_writer fuel 0
    (initState (initialJointWrite cfg init_pos1 init_pos2 eng0) logger)

/-- Read back the recorded velocity sample of a run at environment
`e`, time index `t`, joint `j` (`none` when no logger was attached). -/
def RunResult.velAt (r : RunResult) (e t j : ℕ) : Option ℚ :=
  r.state.logger.map fun L => L.velocity_buffer e t j

/-! ### Projection lemmas for the loop-body pieces -/

@[simp] theorem Event.isCapture_override (n : ℕ) : (Event.override n).isCapture = false := rfl

@[simp] theorem Event.isCapture_engineStep (n : ℕ) : (Event.engineStep n).isCapture = false := rfl

@[simp] theorem Event.isCapture_log (i : ℤ) : (Event.log i).isCapture = false := rfl

@[simp] theorem Event.isCapture_capture : Event.capture.isCapture = true := rfl

@[simp] theorem coreTrace_nil : coreTrace [] = [] := rfl

theorem coreTrace_append (a b : List Event) :
    coreTrace (a ++ b) = coreTrace a ++ coreTrace b := by
  simp [coreTrace, List.filter_append]

@[simp] theorem applyOverride_physics_step (cfg : SimConfig) (st : DriverState) :
    (applyOverride cfg st).physics_step = st.physics_step := rfl

@[simp] theorem applyOverride_sim_time (cfg : SimConfig) (st : DriverState) :
    (applyOverride cfg st).sim_time = st.sim_time := rfl

@[simp] theorem applyOverride_next_frame_time (cfg : SimConfig) (st : DriverState) :
    (applyOverride cfg st).next_frame_time = st.next_frame_time := rfl

@[simp] theorem applyOverride_frames_captured (cfg : SimConfig) (st : DriverState) :
    (applyOverride cfg st).frames_captured = st.frames_captured := rfl

@[simp] theorem applyOverride_logger (cfg : SimConfig) (st : DriverState) :
    (applyOverride cfg st).logger = st.logger := rfl

@[simp] theorem applyOverride_eng (cfg : SimConfig) (st : DriverState) :
    (applyOverride cfg st).eng = overrideVel cfg.target_vel st.eng := rfl

@[simp] theorem applyOverride_trace (cfg : SimConfig) (st : DriverState) :
    (applyOverride cfg st).trace = st.trace ++ [Event.override st.physics_step] := rfl

@[simp] theorem advanceClock_physics_step (cfg : SimConfig) (st : DriverState) (e : EngState) :
    (advanceClock cfg st e).physics_step = st.physics_step + 1 := rfl

@[simp] theorem advanceClock_sim_time (cfg : SimConfig) (st : DriverState) (e : EngState) :
    (advanceClock cfg st e).sim_time = st.sim_time + cfg.sim_dt := rfl

@[simp] theorem advanceClock_next_frame_time (cfg : SimConfig) (st : DriverState) (e : EngState) :
    (advanceClock cfg st e).next_frame_time = st.next_frame_time := rfl

@[simp] theorem advanceClock_frames_captured (cfg : SimConfig) (st : DriverState) (e : EngState) :
    (advanceClock cfg st e).frames_captured = st.frames_captured := rfl

@[simp] theorem advanceClock_logger (cfg : SimConfig) (st : DriverState) (e : EngState) :
    (advanceClock cfg st e).logger = st.logger := rfl

@[simp] theorem advanceClock_eng (cfg : SimConfig) (st : DriverState) (e : EngState) :
    (advanceClock cfg st e).eng = e := rfl

@[simp] theorem advanceClock_trace (cfg : SimConfig) (st : DriverState) (e : EngState) :
    (advanceClock cfg st e).trace = st.trace ++ [Event.engineStep st.physics_step] := rfl

@[simp] theorem doLog_physics_step (st : DriverState) :
    (doLog st).physics_step = st.physics_step := by
  cases hL : st.logger <;> simp [doLog, hL]

@[simp] theorem doLog_sim_time (st : DriverState) :
    (doLog st).sim_time = st.sim_time := by
  cases hL : st.logger <;> simp [doLog, hL]

@[simp] theorem doLog_next_frame_time (st : DriverState) :
    (doLog st).next_frame_time = st.next_frame_time := by
  cases hL : st.logger <;> simp [doLog, hL]

@[simp] theorem doLog_frames_captured (st : DriverState) :
    (doLog st).frames_captured = st.frames_captured := by
  cases hL : st.logger <;> simp [doLog, hL]

@[simp] theorem doLog_eng (st : DriverState) :
    (doLog st).eng = st.eng := by
  cases hL : st.logger <;> simp [doLog, hL]

theorem doLog_logger_none (st : DriverState) (h : st.logger = none) :
    doLog st = st := by
  simp [doLog, h]

theorem doLog_logger_some (st : DriverState) (L : JointLogger) (h : st.logger = some L) :
    (doLog st).logger =
      some (L.log ((st.physics_step : ℤ) - 1) st.eng.pos st.eng.vel).1 ∧
    (doLog st).trace = st.trace ++ [Event.log ((st.physics_step : ℤ) - 1)] := by
  constructor <;> simp [doLog, h]

@[simp] theorem doFrame_physics_step (cfg : SimConfig) (vw : Bool) (st : DriverState) :
    (doFrame cfg vw st).physics_step = st.physics_step := by
  unfold doFrame; split <;> rfl

@[simp] theorem doFrame_sim_time (cfg : SimConfig) (vw : Bool) (st : DriverState) :
    (doFrame cfg vw st).sim_time = st.sim_time := by
  unfold doFrame; split <;> rfl

@[simp] theorem doFrame_logger (cfg : SimConfig) (vw : Bool) (st : DriverState) :
    (doFrame cfg vw st).logger = st.logger := by
  unfold doFrame; split <;> rfl

@[simp] theorem doFrame_eng (cfg : SimConfig) (vw : Bool) (st : DriverState) :
    (doFrame cfg vw st).eng = st.eng := by
  unfold doFrame; split <;> rfl

theorem doFrame_fires (cfg : SimConfig) (vw : Bool) (st : DriverState)
    (h : st.next_frame_time ≤ st.sim_time ∧ vw = true) :
    doFrame cfg vw st =
      { st with
          frames_captured := st.frames_captured + 1
          next_frame_time := st.next_frame_time + 1 / cfg.fps
          trace := st.trace ++ [Event.capture] } := by
  simp [doFrame, h]

theorem doFrame_skips (cfg : SimConfig) (vw : Bool) (st : DriverState)
    (h : ¬ (st.next_frame_time ≤ st.sim_time ∧ vw = true)) :
    doFrame cfg vw st = st := by
  simp only [doFrame, if_neg h]

@[simp] theorem doFrame_false (cfg : SimConfig) (st : DriverState) :
    doFrame cfg false st = st := by
  simp [doFrame]

/-! ### Characterization of one loop body -/

theorem stepOnce_fail_eq {cfg : SimConfig} {eS : ℕ → EngState → Option EngState}
    {vw : Bool} {st st1 : DriverState}
    (h : stepOnce cfg eS vw st = StepOut.fail st1) :
    st1 = applyOverride cfg st := by
  cases he : eS st.physics_step (overrideVel cfg.target_vel st.eng) with
  | none =>
      simp only [stepOnce, applyOverride_eng, he, StepOut.fail.injEq] at h
      exact h.symm
  | some eng' =>
      simp only [stepOnce, applyOverride_eng, he] at h
      exact StepOut.noConfusion h

theorem stepOnce_ok_eq {cfg : SimConfig} {eS : ℕ → EngState → Option EngState}
    {vw : Bool} {st st1 : DriverState}
    (h : stepOnce cfg eS vw st = StepOut.ok st1) :
    ∃ eng', eS st.physics_step (overrideVel cfg.target_vel st.eng) = some eng' ∧
      st1 = doFrame cfg vw (doLog (advanceClock cfg (applyOverride cfg st) eng')) := by
  cases he : eS st.physics_step (overrideVel cfg.target_vel st.eng) with
  | none =>
      simp only [stepOnce, applyOverride_eng, he] at h
      exact StepOut.noConfusion h
  | some eng' =>
      simp only [stepOnce, applyOverride_eng, he, StepOut.ok.injEq] at h
      exact ⟨eng', rfl, h.symm⟩

theorem stepOnce_ok_clock {cfg : SimConfig} {eS : ℕ → EngState → Option EngState}
    {vw : Bool} {st st1 : DriverState}
    (h : stepOnce cfg eS vw st = StepOut.ok st1) :
    st1.physics_step = st.physics_step + 1 ∧
    st1.sim_time = st.sim_time + cfg.sim_dt ∧
    ((st.next_frame_time ≤ st.sim_time + cfg.sim_dt ∧ vw = true) →
        st1.next_frame_time = st.next_frame_time + 1 / cfg.fps ∧
        st1.frames_captured = st.frames_captured + 1) ∧
    (¬ (st.next_frame_time ≤ st.sim_time + cfg.sim_dt ∧ vw = true) →
        st1.next_frame_time = st.next_frame_time ∧
        st1.frames_captured = st.frames_captured) := by
  obtain ⟨eng', -, hst1⟩ := stepOnce_ok_eq h
  subst hst1
  refine ⟨by simp, by simp, ?_, ?_⟩
  · intro hc
    rw [doFrame_fires cfg vw _ (by simpa using hc)]
    simp
  · intro hc
    rw [doFrame_skips cfg vw _ (by simpa using hc)]
    simp

theorem stepOnce_fail_frozen {cfg : SimConfig} {eS : ℕ → EngState → Option EngState}
    {vw : Bool} {st st1 : DriverState}
    (h : stepOnce cfg eS vw st = StepOut.fail st1) :
    st1.physics_step = st.physics_step ∧ st1.sim_time = st.sim_time ∧
    st1.next_frame_time = st.next_frame_time ∧
    st1.frames_captured = st.frames_captured ∧ st1.logger = st.logger := by
  rw [stepOnce_fail_eq h]
  exact ⟨rfl, rfl, rfl, rfl, rfl⟩

/-! ### Generic invariants of the driver loop -/

theorem driverLoop_inv {cfg : SimConfig} {host : ℕ → Bool}
    {eS : ℕ → EngState → Option EngState} {vw : Bool} {P : DriverState → Prop}
    (hok : ∀ st st1, stepOnce cfg eS vw st = StepOut.ok st1 → P st → P st1)
    (hfail : ∀ st st1, stepOnce cfg eS vw st = StepOut.fail st1 → P st → P st1) :
    ∀ fuel iter st, P st → P (driverLoop cfg host eS vw fuel iter st).state := by
  intro fuel
  induction fuel with
  | zero => intro iter st h; exact h
  | succ n ih =>
      intro iter st h
      rw [driverLoop]
      by_cases hh : host iter = true
      · rw [if_pos hh]
        by_cases hd : st.sim_time < cfg.duration
        · rw [if_pos hd]
          cases hso : stepOnce cfg eS vw st with
          | ok st1 => exact ih (iter + 1) st1 (hok _ _ hso h)
          | fail st1 => exact hfail _ _ hso h
        · rw [if_neg hd]; exact h
      · rw [if_neg hh]; exact h

theorem driverLoop_inv_ok {cfg : SimConfig} {host : ℕ → Bool}
    {eS : ℕ → EngState → Option EngState} {vw : Bool} {P : DriverState → Prop}
    (hok : ∀ st st1, stepOnce cfg eS vw st = StepOut.ok st1 → P st → P st1) :
    ∀ fuel iter st, P st →
      (driverLoop cfg host eS vw fuel iter st).exit ≠ ExitKind.fatal →
      P (driverLoop cfg host eS vw fuel iter st).state := by
  intro fuel
  induction fuel with
  | zero => intro iter st h _; exact h
  | succ n ih =>
      intro iter st h hexit
      rw [driverLoop] at hexit ⊢
      by_cases hh : host iter = true
      · rw [if_pos hh] at hexit ⊢
        by_cases hd : st.sim_time < cfg.duration
        · rw [if_pos hd] at hexit ⊢
          cases hso : stepOnce cfg eS vw st with
          | ok st1 =>
              rw [hso] at hexit
              exact ih (iter + 1) st1 (hok _ _ hso h) hexit
          | fail st1 =>
              rw [hso] at hexit
              exact absurd rfl hexit
        · rw [if_neg hd]; exact h
      · rw [if_neg hh]; exact h

theorem driverLoop_closeCount (cfg : SimConfig) (host : ℕ → Bool)
    (eS : ℕ → EngState → Option EngState) (vw : Bool) :
    ∀ fuel iter st,
      (((driverLoop cfg host eS vw fuel iter st).exit = ExitKind.normal ∨
        (driverLoop cfg host eS vw fuel iter st).exit = ExitKind.cancelled) →
        (driverLoop cfg host eS vw fuel iter st).closeCount =
          (if vw = true then 1 else 0)) ∧
      ((driverLoop cfg host eS vw fuel iter st).exit = ExitKind.fatal →
        (driverLoop cfg host eS vw fuel iter st).closeCount = 0) := by
  intro fuel
  induction fuel with
  | zero =>
      intro iter st
      constructor
      · rintro (h | h) <;> simp [driverLoop] at h
      · intro h; simp [driverLoop] at h
  | succ n ih =>
      intro iter st
      rw [driverLoop]
      by_cases hh : host iter = true
      · rw [if_pos hh]
        by_cases hd : st.sim_time < cfg.duration
        · rw [if_pos hd]
          cases hso : stepOnce cfg eS vw st with
          | ok st1 => exact ih (iter + 1) st1
          | fail st1 =>
              constructor
              · rintro (h | h) <;> simp at h
              · intro _; rfl
        · rw [if_neg hd]
          exact ⟨fun _ => rfl, fun h => by simp at h⟩
      · rw [if_neg hh]
        exact ⟨fun _ => rfl, fun h => by simp at h⟩

/-! ### Lemmas about `JointLogger.log` -/

theorem JointLogger.log_num_steps (L : JointLogger) (ti : ℤ)
    (pos vel : ℕ → ℕ → ℚ) :
    (L.log ti pos vel).1.num_steps = L.num_steps := by
  rw [JointLogger.log]
  split <;> rfl

theorem JointLogger.log_in_range (L : JointLogger) (t : ℕ) (ht : t < L.num_steps)
    (pos vel : ℕ → ℕ → ℚ) :
    (L.log (t : ℤ) pos vel).1.position_buffer =
      (fun e u j => if u = t then pos e j else L.position_buffer e u j) ∧
    (L.log (t : ℤ) pos vel).1.velocity_buffer =
      (fun e u j => if u = t then vel e j else L.velocity_buffer e u j) := by
  have hg : ¬ ((t : ℤ) < 0 ∨ (L.num_steps : ℤ) ≤ (t : ℤ)) := by omega
  rw [JointLogger.log, if_neg hg]
  constructor <;> · funext e u j; simp

theorem JointLogger.log_untouched (L : JointLogger) (ti : ℤ)
    (pos vel : ℕ → ℕ → ℚ) (e t' j : ℕ) (h : ti ≠ (t' : ℤ)) :
    (L.log ti pos vel).1.position_buffer e t' j = L.position_buffer e t' j ∧
    (L.log ti pos vel).1.velocity_buffer e t' j = L.velocity_buffer e t' j := by
  by_cases hg : ti < 0 ∨ (L.num_steps : ℤ) ≤ ti
  · rw [JointLogger.log, if_pos hg]
    exact ⟨rfl, rfl⟩
  · have hti : ¬ (t' = ti.toNat) := by omega
    rw [JointLogger.log, if_neg hg]
    constructor <;> simp [hti]

@[simp] theorem logAll_nil (L : JointLogger) : logAll L [] = L := rfl

@[simp] theorem logAll_cons (L : JointLogger) (w : LogCall) (ws : List LogCall) :
    logAll L (w :: ws) = logAll (L.log w.idx w.pos w.vel).1 ws := rfl

theorem logAll_untouched (e t' j : ℕ) :
    ∀ (ws : List LogCall) (L : JointLogger),
      (∀ w ∈ ws, w.idx ≠ (t' : ℤ)) →
      L.position_buffer e t' j = 0 → L.velocity_buffer e t' j = 0 →
      (logAll L ws).position_buffer e t' j = 0 ∧
      (logAll L ws).velocity_buffer e t' j = 0 := by
  intro ws
  induction ws with
  | nil => intro L _ hp hv; exact ⟨hp, hv⟩
  | cons w ws ih =>
      intro L hne hp hv
      have hw : w.idx ≠ (t' : ℤ) := hne w (List.mem_cons_self _ _)
      have hrest : ∀ x ∈ ws, x.idx ≠ (t' : ℤ) :=
        fun x hx => hne x (List.mem_cons_of_mem _ hx)
      rw [logAll_cons]
      obtain ⟨h1, h2⟩ := JointLogger.log_untouched L w.idx w.pos w.vel e t' j hw
      exact ih _ hrest (h1.trans hp) (h2.trans hv)

/-! ### More characterization lemmas for one loop body -/

theorem stepOnce_ok_logger {cfg : SimConfig} {eS : ℕ → EngState → Option EngState}
    {vw : Bool} {st st1 : DriverState} {L : JointLogger}
    (h : stepOnce cfg eS vw st = StepOut.ok st1) (hL : st.logger = some L) :
    ∃ eng', eS st.physics_step (overrideVel cfg.target_vel st.eng) = some eng' ∧
      st1.logger = some (L.log (st.physics_step : ℤ) eng'.pos eng'.vel).1 := by
  obtain ⟨eng', he, hst1⟩ := stepOnce_ok_eq h
  refine ⟨eng', he, ?_⟩
  subst hst1
  rw [doFrame_logger]
  have hL2 : (advanceClock cfg (applyOverride cfg st) eng').logger = some L := by
    simp [hL]
  obtain ⟨h1, -⟩ := doLog_logger_some _ L hL2
  rw [h1]
  simp

theorem stepOnce_ok_logger_none {cfg : SimConfig} {eS : ℕ → EngState → Option EngState}
    {vw : Bool} {st st1 : DriverState}
    (h : stepOnce cfg eS vw st = StepOut.ok st1) (hL : st.logger = none) :
    st1.logger = none := by
  obtain ⟨eng', -, hst1⟩ := stepOnce_ok_eq h
  subst hst1
  rw [doFrame_logger]
  rw [doLog_logger_none _ (by simp [hL])]
  simp [hL]

theorem stepOnce_ok_coreTrace {cfg : SimConfig} {eS : ℕ → EngState → Option EngState}
    {vw : Bool} {st st1 : DriverState} {L : JointLogger}
    (h : stepOnce cfg eS vw st = StepOut.ok st1) (hL : st.logger = some L) :
    coreTrace st1.trace = coreTrace st.trace ++
      [Event.override st.physics_step, Event.engineStep st.physics_step,
       Event.log (st.physics_step : ℤ)] := by
  obtain ⟨eng', he, hst1⟩ := stepOnce_ok_eq h
  subst hst1
  have hL2 : (advanceClock cfg (applyOverride cfg st) eng').logger = some L := by
    simp [hL]
  obtain ⟨-, h2⟩ := doLog_logger_some _ L hL2
  by_cases hc : (doLog (advanceClock cfg (applyOverride cfg st) eng')).next_frame_time ≤
      (doLog (advanceClock cfg (applyOverride cfg st) eng')).sim_time ∧ vw = true
  · rw [doFrame_fires _ _ _ hc]
    show coreTrace
        ((doLog (advanceClock cfg (applyOverride cfg st) eng')).trace ++ [Event.capture]) = _
    rw [coreTrace_append, h2, coreTrace_append]
    simp [coreTrace]
  · rw [doFrame_skips _ _ _ hc, h2, coreTrace_append]
    simp [coreTrace]

theorem stepOnce_ok_no_capture {cfg : SimConfig} {eS : ℕ → EngState → Option EngState}
    {st st1 : DriverState}
    (h : stepOnce cfg eS false st = StepOut.ok st1)
    (hcap : Event.capture ∉ st.trace) : Event.capture ∉ st1.trace := by
  obtain ⟨eng', -, hst1⟩ := stepOnce_ok_eq h
  subst hst1
  rw [doFrame_false]
  cases hL : (advanceClock cfg (applyOverride cfg st) eng').logger with
  | none =>
      rw [doLog_logger_none _ hL]
      simp [hcap]
  | some L =>
      obtain ⟨-, h2⟩ := doLog_logger_some _ L hL
      rw [h2]
      simp [hcap]

theorem stepOnce_fail_no_capture {cfg : SimConfig} {eS : ℕ → EngState → Option EngState}
    {vw : Bool} {st st1 : DriverState}
    (h : stepOnce cfg eS vw st = StepOut.fail st1)
    (hcap : Event.capture ∉ st.trace) : Event.capture ∉ st1.trace := by
  rw [stepOnce_fail_eq h]
  simp [hcap]

/-! ### The pure clock projection of the loop

The four loop counters evolve independently of the engine state, the
logger and the trace.  `clockLoop` is that projection; the simulation
lemma `driverLoop_to_clock` proves it faithful for every engine whose
step call always returns (no fatal error), and it is what makes the
concrete 100-step run of scenario 1 tractable to evaluate. -/

structure ClockState where
  physics_step : ℕ
  sim_time : ℚ
  next_frame_time : ℚ
  frames_captured : ℕ
  deriving DecidableEq

structure ClockResult where
  exit : ExitKind
  c : ClockState
  deriving DecidableEq

/-- The clock counters of a driver state. -/
def clockOf (st : DriverState) : ClockState :=
  { physics_step := st.physics_step
    sim_time := st.sim_time
    next_frame_time := st.next_frame_time
    frames_captured := st.frames_captured }

/-- Counter evolution of one loop body. -/
def clockStep (cfg : SimConfig) (vw : Bool) (c : ClockState) : ClockState :=
  let c1 : ClockState :=
    { c with physics_step := c.physics_step + 1, sim_time := c.sim_time + cfg.sim_dt }
  if c1.next_frame_time ≤ c1.sim_time ∧ vw = true then
    { c1 with
        frames_captured := c1.frames_captured + 1
        next_frame_time := c1.next_frame_time + 1 / cfg.fps }
  else c1

/-- Counter evolution of the whole loop. -/
def clockLoop (cfg : SimConfig) (host : ℕ → Bool) (vw : Bool) :
    ℕ → ℕ → ClockState → ClockResult
  | 0, _, c => { exit := ExitKind.fuelOut, c := c }
  | fuel + 1, iter, c =>
    if host iter = true then
      if c.sim_time < cfg.duration then
        clockLoop cfg host vw fuel (iter + 1) (clockStep cfg vw c)
      else { exit := ExitKind.normal, c := c }
    else { exit := ExitKind.cancelled, c := c }

theorem stepOnce_ok_clockOf {cfg : SimConfig} {eS : ℕ → EngState → Option EngState}
    {vw : Bool} {st st1 : DriverState}
    (h : stepOnce cfg eS vw st = StepOut.ok st1) :
    clockOf st1 = clockStep cfg vw (clockOf st) := by
  obtain ⟨hps, hsim, hfire, hskip⟩ := stepOnce_ok_clock h
  by_cases hc : st.next_frame_time ≤ st.sim_time + cfg.sim_dt ∧ vw = true
  · obtain ⟨hn, hf⟩ := hfire hc
    simp only [clockStep, clockOf]
    rw [if_pos (by simpa using hc)]
    simp [hps, hsim, hn, hf]
  · obtain ⟨hn, hf⟩ := hskip hc
    simp only [clockStep, clockOf]
    rw [if_neg (by simpa using hc)]
    simp [hps, hsim, hn, hf]

theorem driverLoop_to_clock (cfg : SimConfig) (host : ℕ → Bool)
    (eS : ℕ → EngState → Option EngState) (vw : Bool)
    (htot : ∀ n s, (eS n s).isSome = true) :
    ∀ fuel iter st,
      (driverLoop cfg host eS vw fuel iter st).exit =
        (clockLoop cfg host vw fuel iter (clockOf st)).exit ∧
      clockOf (driverLoop cfg host eS vw fuel iter st).state =
        (clockLoop cfg host vw fuel iter (clockOf st)).c := by
  intro fuel
  induction fuel with
  | zero => intro iter st; exact ⟨rfl, rfl⟩
  | succ n ih =>
      intro iter st
      rw [driverLoop, clockLoop]
      by_cases hh : host iter = true
      · rw [if_pos hh, if_pos hh]
        by_cases hd : st.sim_time < cfg.duration
        · rw [if_pos hd, if_pos (show (clockOf st).sim_time < cfg.duration from hd)]
          cases hso : stepOnce cfg eS vw st with
          | ok st1 =>
              have hc := stepOnce_ok_clockOf hso
              have := ih (iter + 1) st1
              rw [hc] at this
              exact this
          | fail st1 =>
              exfalso
              obtain ⟨eng', he, -⟩ :
                  ∃ e, eS st.physics_step (overrideVel cfg.target_vel st.eng) = some e ∧
                    True := by
                have h2 := htot st.physics_step (overrideVel cfg.target_vel st.eng)
                cases he2 : eS st.physics_step (overrideVel cfg.target_vel st.eng) with
                | none => rw [he2] at h2; simp at h2
                | some e => exact ⟨e, rfl, trivial⟩
              have : stepOnce cfg eS vw st =
                  StepOut.ok (doFrame cfg vw (doLog (advanceClock cfg (applyOverride cfg st) eng'))) := by
                simp only [stepOnce, applyOverride_eng, he]
              rw [this] at hso
              exact StepOut.noConfusion hso
        · rw [if_neg hd, if_neg (show ¬ (clockOf st).sim_time < cfg.duration from hd)]
          exact ⟨rfl, rfl⟩
      · rw [if_neg hh, if_neg hh]
        exact ⟨rfl, rfl⟩

/-! ### Concrete instances used by witnesses and counterexamples -/

/-- An engine whose step leaves the joint state unchanged. -/
def idEngine : ℕ → EngState → Option EngState := fun _ s => some s

/-- An engine whose step zeroes every joint velocity (a legitimate
behavior of the opaque external solver). -/
def zeroVelEngine : ℕ → EngState → Option EngState :=
  fun _ s => some { s with vel := fun _ _ => 0 }

/-- An engine whose step raises a fatal error immediately. -/
def failEngine : ℕ → EngState → Option EngState := fun _ _ => none

/-- A host that always reports running. -/
def alwaysOn : ℕ → Bool := fun _ => true

/-- A host that reports not-running from the very first poll. -/
def neverOn : ℕ → Bool := fun _ => false

/-- Engine state with all positions and velocities zero. -/
def engZero : EngState := { pos := fun _ _ => 0, vel := fun _ _ => 0 }

/-- The run parameters of end-to-end scenario 1/2:
`dt = 0.01`, `duration = 1.0`, `fps = 10`, override value `1000.0`. -/
def cfg1 : SimConfig :=
  { sim_dt := 1/100, duration := 1, fps := 10, target_vel := 1000 }

/-- The logger `JointLogger(robot, sim_dt=0.01, duration=1.0)` built for
one environment and the three gyro joints. -/
def logger3 : JointLogger := JointLogger.init 1 3 (1/100) 1

theorem logger3_num_steps : logger3.num_steps = 100 := by
  have h1 : ((1 : ℚ) / (1 / 100)) = 100 := by norm_num
  show (pyInt ((1 : ℚ) / (1 / 100))).toNat = 100
  rw [h1]
  show (Int.tdiv (100 : ℚ).num ((100 : ℚ).den : ℤ)).toNat = 100
  norm_num [pyInt]
  decide

def pA : ℕ → ℕ → ℚ := fun _ _ => 1
def vA : ℕ → ℕ → ℚ := fun _ _ => 2
def pB : ℕ → ℕ → ℚ := fun _ _ => 3
def vB : ℕ → ℕ → ℚ := fun _ _ => 4

/-- A short three-step configuration used by witnesses:
`dt = 0.1`, `duration = 0.3`, `fps = 2`, override value `1000`. -/
def cfgW : SimConfig := { sim_dt := 1/10, duration := 3/10, fps := 2, target_vel := 1000 }

/-- The logger sized for `cfgW`. -/
def loggerW : JointLogger := JointLogger.init 1 3 (1/10) (3/10)

/-- A full short run: identity engine, host always running, writer and
logger attached. -/
def runW : RunResult :=
  run_simulator cfgW 0 0 alwaysOn idEngine true (some loggerW) engZero 10

/-- A run cancelled by the host at the first poll. -/
def runC : RunResult :=
  run_simulator cfgW 0 0 neverOn idEngine true (some loggerW) engZero 10

/-- A run whose first engine step raises a fatal error. -/
def runF : RunResult :=
  run_simulator cfgW 0 0 alwaysOn failEngine true (some loggerW) engZero 10

/-- A one-step configuration with `dt = duration = 1`. -/
def cfgZ : SimConfig := { sim_dt := 1, duration := 1, fps := 1, target_vel := 1000 }

/-- The logger sized for `cfgZ` (a single time step). -/
def loggerZ : JointLogger := JointLogger.init 1 3 1 1

/-- A one-step run against the velocity-zeroing engine. -/
def runZ : RunResult :=
  run_simulator cfgZ 0 0 alwaysOn zeroVelEngine true (some loggerZ) engZero 5

/-- The 100-step run of end-to-end scenario 1/2: `dt = 0.01`,
`duration = 1.0`, `fps = 10`, identity engine, writer and logger
attached. -/
def run1 : RunResult :=
  run_simulator cfg1 0 0 alwaysOn idEngine true (some logger3) engZero 200

theorem idEngine_total : ∀ n s, (idEngine n s).isSome = true := fun _ _ => rfl

theorem loggerW_num_steps : loggerW.num_steps = 3 := by
  have h1 : ((3 : ℚ) / 10) / (1 / 10) = 3 := by norm_num
  show (pyInt (((3 : ℚ) / 10) / (1 / 10))).toNat = 3
  rw [h1]
  show (Int.tdiv (3 : ℚ).num ((3 : ℚ).den : ℤ)).toNat = 3
  norm_num [pyInt]
  decide

theorem loggerZ_num_steps : loggerZ.num_steps = 1 := by
  have h1 : ((1 : ℚ) / 1) = 1 := by norm_num
  show (pyInt ((1 : ℚ) / 1)).toNat = 1
  rw [h1]
  show (Int.tdiv (1 : ℚ).num ((1 : ℚ).den : ℤ)).toNat = 1
  norm_num [pyInt]

theorem runW_clock :
    runW.exit = ExitKind.normal ∧
    clockOf runW.state =
      { physics_step := 3, sim_time := 3/10, next_frame_time := 1/2,
        frames_captured := 1 } := by
  have h := driverLoop_to_clock cfgW alwaysOn idEngine true idEngine_total 10 0
    (initState (initialJointWrite cfgW 0 0 engZero) (some loggerW))
  have hc : clockOf (initState (initialJointWrite cfgW 0 0 engZero) (some loggerW)) =
      { physics_step := 0, sim_time := 0, next_frame_time := 0, frames_captured := 0 } := rfl
  rw [hc] at h
  have he : clockLoop cfgW alwaysOn true 10 0
      { physics_step := 0, sim_time := 0, next_frame_time := 0, frames_captured := 0 } =
      { exit := ExitKind.normal
        c := { physics_step := 3, sim_time := 3/10, next_frame_time := 1/2,
               frames_captured := 1 } } := by
    norm_num [clockLoop, clockStep, alwaysOn, cfgW]
  rw [he] at h
  exact h

theorem runW_physics_step : runW.state.physics_step = 3 := by
  have h := congrArg ClockState.physics_step runW_clock.2
  simpa [clockOf] using h

set_option maxRecDepth 40000 in
theorem run1_clock :
    run1.exit = ExitKind.normal ∧
    clockOf run1.state =
      { physics_step := 100, sim_time := 1, next_frame_time := 11/10,
        frames_captured := 11 } := by
  have h := driverLoop_to_clock cfg1 alwaysOn idEngine true idEngine_total 200 0
    (initState (initialJointWrite cfg1 0 0 engZero) (some logger3))
  have hc : clockOf (initState (initialJointWrite cfg1 0 0 engZero) (some logger3)) =
      { physics_step := 0, sim_time := 0, next_frame_time := 0, frames_captured := 0 } := rfl
  rw [hc] at h
  have he : clockLoop cfg1 alwaysOn true 200 0
      { physics_step := 0, sim_time := 0, next_frame_time := 0, frames_captured := 0 } =
      { exit := ExitKind.normal
        c := { physics_step := 100, sim_time := 1, next_frame_time := 11/10,
               frames_captured := 11 } } := by
    norm_num [clockLoop, clockStep, alwaysOn, cfg1]
  rw [he] at h
  exact h

/-- Out-of-range `log` helper (shared): the guarded branch returns the
logger unchanged with the warning flag set. -/
theorem JointLogger.log_out_of_range (L : JointLogger) (t : ℤ)
    (pos vel : ℕ → ℕ → ℚ) (h : t < 0 ∨ (L.num_steps : ℤ) ≤ t) :
    L.log t pos vel = (L, true) := by
  rw [JointLogger.log, if_pos h]

/-! ### Claims -/

/-- C2 (amended): the video-writer close operation executes exactly
once when the run ends through the loop condition — normal completion
(`sim_time` reached `duration`) or host cancellation — but it does
NOT execute when a fatal engine error escapes the loop: the close call
sits after the loop, not in a finally block, and the `__main__`
finally block only closes the app handle, not the video writer. -/
theorem C2_cleanup_close_once (cfg : SimConfig) (i1 i2 : ℚ) (host : ℕ → Bool)
    (eS : ℕ → EngState → Option EngState) (logger0 : Option JointLogger)
    (eng0 : EngState) (fuel : ℕ) :
    (((run_simulator cfg i1 i2 host eS true logger0 eng0 fuel).exit = ExitKind.normal ∨
      (run_simulator cfg i1 i2 host eS true logger0 eng0 fuel).exit = ExitKind.cancelled) →
      (run_simulator cfg i1 i2 host eS true logger0 eng0 fuel).closeCount = 1) ∧
    ((run_simulator cfg i1 i2 host eS true logger0 eng0 fuel).exit = ExitKind.fatal →
      (run_simulator cfg i1 i2 host eS true logger0 eng0 fuel).closeCount = 0) := by
  have h := driverLoop_closeCount cfg host eS true fuel 0
    (initState (initialJointWrite cfg i1 i2 eng0) logger0)
  simpa using h

/-- Witness for C2 on the concrete cancelled run `runC`. -/
theorem C2_cleanup_close_once_witness :
    (runC.exit = ExitKind.normal ∨ runC.exit = ExitKind.cancelled) ∧
    runC.closeCount = 1 :=
  ⟨Or.inr rfl,
   (C2_cleanup_close_once cfgW 0 0 neverOn idEngine (some loggerW) engZero 10).1
     (Or.inr rfl)⟩

/-- Counterexample to C2 as stated: on the run whose first engine step
raises, the exit is fatal and the close count is 0, not 1 — the close
operation does not execute on the fatal exit path. -/
theorem C2_counterexample_fatal_no_close :
    runF.exit = ExitKind.fatal ∧ runF.closeCount = 0 := by
  constructor <;>
    norm_num [runF, run_simulator, driverLoop, stepOnce, initState,
      initialJointWrite, applyOverride, overrideVel, alwaysOn, failEngine, cfgW]

/-- C5: the simulation clock invariant.  Each successful loop body
advances `physics_step` by exactly one and `sim_time` by exactly
`sim_dt` (never resetting either), so `sim_time` is strictly
monotonically increasing when `sim_dt > 0`; consequently, at the end
of every run (under this exact-arithmetic model)
`sim_time = physics_step * sim_dt`. -/
theorem C5_clock_invariant (cfg : SimConfig) (hdt : 0 < cfg.sim_dt) :
    (∀ (eS : ℕ → EngState → Option EngState) (vw : Bool) (st st1 : DriverState),
        stepOnce cfg eS vw st = StepOut.ok st1 →
        st1.physics_step = st.physics_step + 1 ∧
        st1.sim_time = st.sim_time + cfg.sim_dt ∧
        st.sim_time < st1.sim_time) ∧
    (∀ (i1 i2 : ℚ) (host : ℕ → Bool) (eS : ℕ → EngState → Option EngState)
        (vw : Bool) (logger0 : Option JointLogger) (eng0 : EngState) (fuel : ℕ),
        (run_simulator cfg i1 i2 host eS vw logger0 eng0 fuel).state.sim_time =
          ((run_simulator cfg i1 i2 host eS vw logger0 eng0 fuel).state.physics_step : ℚ) *
            cfg.sim_dt) := by
  constructor
  · intro eS vw st st1 h
    obtain ⟨hps, hsim, -, -⟩ := stepOnce_ok_clock h
    refine ⟨hps, hsim, ?_⟩
    rw [hsim]
    linarith
  · intro i1 i2 host eS vw logger0 eng0 fuel
    exact @driverLoop_inv cfg host eS vw
      (fun st => st.sim_time = (st.physics_step : ℚ) * cfg.sim_dt)
      (fun st st1 hso hP => by
        obtain ⟨hps, hsim, -, -⟩ := stepOnce_ok_clock hso
        rw [hsim, hps, hP]
        push_cast
        ring)
      (fun st st1 hso hP => by
        obtain ⟨hps, hsim, -, -, -⟩ := stepOnce_fail_frozen hso
        rw [hsim, hps, hP])
      fuel 0 (initState (initialJointWrite cfg i1 i2 eng0) logger0)
      (by simp [initState])

/-- Witness for C5 on the concrete short run `runW`. -/
theorem C5_clock_invariant_witness :
    0 < cfgW.sim_dt ∧
    runW.state.sim_time = (runW.state.physics_step : ℚ) * cfgW.sim_dt :=
  ⟨by norm_num [cfgW],
   (C5_clock_invariant cfgW (by norm_num [cfgW])).2 0 0 alwaysOn idEngine true
     (some loggerW) engZero 10⟩

/-- C6: the frame scheduler.  With the writer attached, a successful
loop body fires a capture exactly when the post-step `sim_time` has
reached `next_frame_time`; on a capture `next_frame_time` increases by
exactly `1 / fps` (a fixed increment) and `frames_captured` by exactly
one; otherwise both are unchanged.  At most one capture fires per
physics step, and (for `fps > 0`) both quantities are monotonically
non-decreasing. -/
theorem C6_frame_scheduler (cfg : SimConfig) (eS : ℕ → EngState → Option EngState)
    (st : DriverState) (hfps : 0 < cfg.fps)
    (heng : ∃ e, eS st.physics_step (overrideVel cfg.target_vel st.eng) = some e) :
    ∃ st1, stepOnce cfg eS true st = StepOut.ok st1 ∧
      (st.next_frame_time ≤ st.sim_time + cfg.sim_dt →
          st1.frames_captured = st.frames_captured + 1 ∧
          st1.next_frame_time = st.next_frame_time + 1 / cfg.fps) ∧
      (¬ st.next_frame_time ≤ st.sim_time + cfg.sim_dt →
          st1.frames_captured = st.frames_captured ∧
          st1.next_frame_time = st.next_frame_time) ∧
      st.next_frame_time ≤ st1.next_frame_time ∧
      st.frames_captured ≤ st1.frames_captured ∧
      st1.frames_captured ≤ st.frames_captured + 1 := by
  obtain ⟨e, he⟩ := heng
  have hok : stepOnce cfg eS true st =
      StepOut.ok (doFrame cfg true (doLog (advanceClock cfg (applyOverride cfg st) e))) := by
    simp only [stepOnce, applyOverride_eng, he]
  obtain ⟨-, -, hfire, hskip⟩ := stepOnce_ok_clock hok
  have hfpos : 0 < 1 / cfg.fps := by positivity
  by_cases hc : st.next_frame_time ≤ st.sim_time + cfg.sim_dt
  · obtain ⟨hn, hf⟩ := hfire ⟨hc, rfl⟩
    refine ⟨_, hok, fun _ => ⟨hf, hn⟩, fun hnc => absurd hc hnc, ?_, ?_, ?_⟩
    · rw [hn]; linarith
    · rw [hf]; omega
    · rw [hf]
  · obtain ⟨hn, hf⟩ := hskip (by rintro ⟨h1, -⟩; exact hc h1)
    exact ⟨_, hok, fun hcc => absurd hcc hc, fun _ => ⟨hf, hn⟩,
      by rw [hn], by rw [hf], by rw [hf]; omega⟩

/-- Witness for C6: the scheduler conclusion at the initial state of
the short run (where the first step fires the deadline-0 capture). -/
theorem C6_frame_scheduler_witness :
    0 < cfgW.fps ∧
    (∃ st1,
        stepOnce cfgW idEngine true
          (initState (initialJointWrite cfgW 0 0 engZero) (some loggerW)) =
          StepOut.ok st1 ∧
        ((initState (initialJointWrite cfgW 0 0 engZero) (some loggerW)).next_frame_time ≤
            (initState (initialJointWrite cfgW 0 0 engZero) (some loggerW)).sim_time +
              cfgW.sim_dt →
            st1.frames_captured =
              (initState (initialJointWrite cfgW 0 0 engZero) (some loggerW)).frames_captured + 1 ∧
            st1.next_frame_time =
              (initState (initialJointWrite cfgW 0 0 engZero) (some loggerW)).next_frame_time +
                1 / cfgW.fps) ∧
        (¬ (initState (initialJointWrite cfgW 0 0 engZero) (some loggerW)).next_frame_time ≤
            (initState (initialJointWrite cfgW 0 0 engZero) (some loggerW)).sim_time +
              cfgW.sim_dt →
            st1.frames_captured =
              (initState (initialJointWrite cfgW 0 0 engZero) (some loggerW)).frames_captured ∧
            st1.next_frame_time =
              (initState (initialJointWrite cfgW 0 0 engZero) (some loggerW)).next_frame_time) ∧
        (initState (initialJointWrite cfgW 0 0 engZero) (some loggerW)).next_frame_time ≤
          st1.next_frame_time ∧
        (initState (initialJointWrite cfgW 0 0 engZero) (some loggerW)).frames_captured ≤
          st1.frames_captured ∧
        st1.frames_captured ≤
          (initState (initialJointWrite cfgW 0 0 engZero) (some loggerW)).frames_captured + 1) :=
  ⟨by norm_num [cfgW],
   C6_frame_scheduler cfgW idEngine
     (initState (initialJointWrite cfgW 0 0 engZero) (some loggerW))
     (by norm_num [cfgW]) ⟨_, rfl⟩⟩

/-- C10: with no video writer attached, the frame-deadline check is
conjoined with the presence of the writer, so in every run (any
engine, host, logger, fuel, any exit path) no frame is ever captured,
`frames_captured` stays 0, and `next_frame_time` stays at its initial
value 0. -/
theorem C10_no_writer_no_capture (cfg : SimConfig) (i1 i2 : ℚ) (host : ℕ → Bool)
    (eS : ℕ → EngState → Option EngState) (logger0 : Option JointLogger)
    (eng0 : EngState) (fuel : ℕ) :
    (run_simulator cfg i1 i2 host eS false logger0 eng0 fuel).state.frames_captured = 0 ∧
    (run_simulator cfg i1 i2 host eS false logger0 eng0 fuel).state.next_frame_time = 0 ∧
    Event.capture ∉ (run_simulator cfg i1 i2 host eS false logger0 eng0 fuel).state.trace := by
  exact @driverLoop_inv cfg host eS false
    (fun st => st.frames_captured = 0 ∧ st.next_frame_time = 0 ∧
      Event.capture ∉ st.trace)
    (fun st st1 hso hP => by
      obtain ⟨-, -, -, hskip⟩ := stepOnce_ok_clock hso
      obtain ⟨hn, hf⟩ := hskip (by rintro ⟨-, hb⟩; exact Bool.false_ne_true hb)
      exact ⟨hf.trans hP.1, hn.trans hP.2.1, stepOnce_ok_no_capture hso hP.2.2⟩)
    (fun st st1 hso hP => by
      obtain ⟨-, -, hn, hf, -⟩ := stepOnce_fail_frozen hso
      exact ⟨hf.trans hP.1, hn.trans hP.2.1, stepOnce_fail_no_capture hso hP.2.2⟩)
    fuel 0 (initState (initialJointWrite cfg i1 i2 eng0) logger0)
    ⟨rfl, rfl, by simp [initState]⟩

/-- C7: for every `time_index` outside `[0, num_steps)`, the telemetry
recorder's `log` is a non-fatal no-op: it returns with the warning flag
set, leaves the logger (in particular both buffers) entirely unchanged,
and — being a total function — never raises. -/
theorem C7_out_of_range_log_noop (L : JointLogger) (t : ℤ)
    (pos vel : ℕ → ℕ → ℚ) (h : t < 0 ∨ (L.num_steps : ℤ) ≤ t) :
    L.log t pos vel = (L, true) := by
  rw [JointLogger.log, if_pos h]

/-- Witness for C7 at the concrete out-of-range index 100 of a
100-step logger. -/
theorem C7_out_of_range_log_noop_witness :
    ((100 : ℤ) < 0 ∨ (logger3.num_steps : ℤ) ≤ 100) ∧
    logger3.log 100 pA vA = (logger3, true) :=
  ⟨Or.inr (by rw [logger3_num_steps]; norm_num),
   C7_out_of_range_log_noop logger3 100 pA vA
     (Or.inr (by rw [logger3_num_steps]; norm_num))⟩

/-- C8: for every valid step index, recording twice at the same index
with different joint states leaves only the latest value stored
(last-write-wins, shown on both buffers), and on a freshly constructed
logger any index in `[0, num_steps)` never targeted by a `log` call
reads back the zero initial fill in both buffers. -/
theorem C8_last_write_wins_zero_init (L : JointLogger) (t : ℕ)
    (ht : t < L.num_steps) (p1 v1 p2 v2 : ℕ → ℕ → ℚ) :
    (∀ e j,
        ((L.log (t : ℤ) p1 v1).1.log (t : ℤ) p2 v2).1.position_buffer e t j = p2 e j ∧
        ((L.log (t : ℤ) p1 v1).1.log (t : ℤ) p2 v2).1.velocity_buffer e t j = v2 e j) ∧
    (∀ (nE nJ : ℕ) (dt dur : ℚ) (ws : List LogCall) (t' e j : ℕ),
        t' < (JointLogger.init nE nJ dt dur).num_steps →
        (∀ w ∈ ws, w.idx ≠ (t' : ℤ)) →
        (logAll (JointLogger.init nE nJ dt dur) ws).position_buffer e t' j = 0 ∧
        (logAll (JointLogger.init nE nJ dt dur) ws).velocity_buffer e t' j = 0) := by
  constructor
  · intro e j
    have ht1 : t < (L.log (t : ℤ) p1 v1).1.num_steps := by
      rw [JointLogger.log_num_steps]; exact ht
    obtain ⟨hp, hv⟩ := JointLogger.log_in_range (L.log (t : ℤ) p1 v1).1 t ht1 p2 v2
    rw [hp, hv]
    simp
  · intro nE nJ dt dur ws t' e j _ hne
    exact logAll_untouched e t' j ws (JointLogger.init nE nJ dt dur) hne rfl rfl

/-- Witness for C8: double-write at index 5 of a 100-step logger reads
back the second write; index 7, never written by the single call at
index 3, reads back zero. -/
theorem C8_last_write_wins_zero_init_witness :
    5 < logger3.num_steps ∧
    ((logger3.log (5 : ℤ) pA vA).1.log (5 : ℤ) pB vB).1.position_buffer 0 5 1 = 3 ∧
    ((logger3.log (5 : ℤ) pA vA).1.log (5 : ℤ) pB vB).1.velocity_buffer 0 5 1 = 4 ∧
    (logAll (JointLogger.init 1 3 (1/100) 1) [⟨3, pA, vA⟩]).position_buffer 0 7 1 = 0 ∧
    (logAll (JointLogger.init 1 3 (1/100) 1) [⟨3, pA, vA⟩]).velocity_buffer 0 7 1 = 0 := by
  have h5 : 5 < logger3.num_steps := by rw [logger3_num_steps]; omega
  have h7 : 7 < (JointLogger.init 1 3 (1/100) 1).num_steps := by
    show 7 < logger3.num_steps
    rw [logger3_num_steps]; omega
  have hmem : ∀ w ∈ [(⟨3, pA, vA⟩ : LogCall)], w.idx ≠ ((7 : ℕ) : ℤ) := by
    intro w hw
    rcases List.mem_singleton.mp hw with rfl
    decide
  refine ⟨h5, ?_, ?_, ?_, ?_⟩
  · exact ((C8_last_write_wins_zero_init logger3 5 h5 pA vA pB vB).1 0 1).1
  · exact ((C8_last_write_wins_zero_init logger3 5 h5 pA vA pB vB).1 0 1).2
  · exact ((C8_last_write_wins_zero_init logger3 5 h5 pA vA pB vB).2
      1 3 (1/100) 1 [⟨3, pA, vA⟩] 7 0 1 h7 hmem).1
  · exact ((C8_last_write_wins_zero_init logger3 5 h5 pA vA pB vB).2
      1 3 (1/100) 1 [⟨3, pA, vA⟩] 7 0 1 h7 hmem).2

/-- C4: for every `fps > 0` and `dt > 0` with `dt < 1/fps`, after any
run of the driver loop with a frame writer attached covering `N`
physics steps (simulated time `T = N * dt`), the number of captured
frames equals `floor(T * fps)` within one frame — here proved as the
two-sided bound `floor(T * fps) ≤ frames ≤ floor(T * fps) + 1` — for
every engine, host schedule and fuel, hence with no unbounded drift as
`T` grows. -/
theorem C4_frames_within_one_of_floor (cfg : SimConfig) (i1 i2 : ℚ) (host : ℕ → Bool)
    (eS : ℕ → EngState → Option EngState) (logger0 : Option JointLogger)
    (eng0 : EngState) (fuel : ℕ)
    (hfps : 0 < cfg.fps) (hdt : 0 < cfg.sim_dt) (hlt : cfg.sim_dt < 1 / cfg.fps) :
    ⌊((run_simulator cfg i1 i2 host eS true logger0 eng0 fuel).state.physics_step : ℚ) *
        cfg.sim_dt * cfg.fps⌋ ≤
      ((run_simulator cfg i1 i2 host eS true logger0 eng0 fuel).state.frames_captured : ℤ) ∧
    ((run_simulator cfg i1 i2 host eS true logger0 eng0 fuel).state.frames_captured : ℤ) ≤
      ⌊((run_simulator cfg i1 i2 host eS true logger0 eng0 fuel).state.physics_step : ℚ) *
          cfg.sim_dt * cfg.fps⌋ + 1 := by
  have hP := @driverLoop_inv cfg host eS true
    (fun st =>
      (st.physics_step = 0 ∧ st.sim_time = 0 ∧ st.next_frame_time = 0 ∧
        st.frames_captured = 0) ∨
      (1 ≤ st.physics_step ∧ st.sim_time = (st.physics_step : ℚ) * cfg.sim_dt ∧
        st.next_frame_time = (st.frames_captured : ℚ) * (1 / cfg.fps) ∧
        st.sim_time < st.next_frame_time ∧
        st.next_frame_time ≤ st.sim_time + 1 / cfg.fps))
    (fun st st1 hso hP => by
      obtain ⟨hps, hsim, hfire, hskip⟩ := stepOnce_ok_clock hso
      rcases hP with ⟨h0, hs0, hn0, hf0⟩ | ⟨h1, hsim0, hnext0, hlt0, hle0⟩
      · obtain ⟨hn, hf⟩ := hfire ⟨by rw [hn0, hs0]; linarith, rfl⟩
        refine Or.inr ⟨by omega, ?_, ?_, ?_, ?_⟩
        · rw [hsim, hs0, hps, h0]; push_cast; ring
        · rw [hn, hn0, hf, hf0]; push_cast; ring
        · rw [hsim, hn, hs0, hn0]; linarith
        · rw [hsim, hn, hs0, hn0]; linarith
      · by_cases hc : st.next_frame_time ≤ st.sim_time + cfg.sim_dt
        · obtain ⟨hn, hf⟩ := hfire ⟨hc, rfl⟩
          refine Or.inr ⟨by omega, ?_, ?_, ?_, ?_⟩
          · rw [hsim, hsim0, hps]; push_cast; ring
          · rw [hn, hnext0, hf]; push_cast; ring
          · rw [hsim, hn]; linarith
          · rw [hsim, hn]; linarith
        · obtain ⟨hn, hf⟩ := hskip (by rintro ⟨hx, -⟩; exact hc hx)
          push_neg at hc
          refine Or.inr ⟨by omega, ?_, ?_, ?_, ?_⟩
          · rw [hsim, hsim0, hps]; push_cast; ring
          · rw [hn, hnext0, hf]
          · rw [hsim, hn]; linarith
          · rw [hsim, hn]; linarith)
    (fun st st1 hso hP => by
      obtain ⟨hps, hsim, hn, hf, -⟩ := stepOnce_fail_frozen hso
      rcases hP with ⟨a, b, c, d⟩ | ⟨a, b, c, d, e⟩
      · exact Or.inl ⟨by omega, by rw [hsim]; exact b, by rw [hn]; exact c, by omega⟩
      · exact Or.inr ⟨by omega, by rw [hsim, hps]; exact b, by rw [hn, hf]; exact c,
          by rw [hsim, hn]; exact d, by rw [hsim, hn]; exact e⟩)
    fuel 0 (initState (initialJointWrite cfg i1 i2 eng0) logger0)
    (Or.inl ⟨rfl, rfl, rfl, rfl⟩)
  have hfne : cfg.fps ≠ 0 := ne_of_gt hfps
  simp only [run_simulator]
  rcases hP with ⟨ha, -, -, hd⟩ | ⟨-, hsim0, hnext0, hltn, hlen⟩
  · rw [ha, hd]
    norm_num
  · rw [hsim0, hnext0, mul_one_div] at hltn hlen
    have h1 := (lt_div_iff₀ hfps).mp hltn
    have h2 := (div_le_iff₀ hfps).mp hlen
    rw [add_mul, one_div_mul_cancel hfne] at h2
    constructor
    · have h4 := Int.floor_le_floor h1.le
      rwa [Int.floor_natCast] at h4
    · have h6 : ((driverLoop cfg host eS true fuel 0
          (initState (initialJointWrite cfg i1 i2 eng0) logger0)).state.frames_captured : ℤ) - 1 ≤
          ⌊((driverLoop cfg host eS true fuel 0
            (initState (initialJointWrite cfg i1 i2 eng0) logger0)).state.physics_step : ℚ) *
            cfg.sim_dt * cfg.fps⌋ := by
        rw [Int.le_floor]
        push_cast
        linarith
      omega

/-- Witness for C4 on the concrete short run `runW` (`dt = 0.1`,
`fps = 2`). -/
theorem C4_frames_within_one_of_floor_witness :
    0 < cfgW.fps ∧ 0 < cfgW.sim_dt ∧ cfgW.sim_dt < 1 / cfgW.fps ∧
    (⌊(runW.state.physics_step : ℚ) * cfgW.sim_dt * cfgW.fps⌋ ≤
        (runW.state.frames_captured : ℤ) ∧
      (runW.state.frames_captured : ℤ) ≤
        ⌊(runW.state.physics_step : ℚ) * cfgW.sim_dt * cfgW.fps⌋ + 1) :=
  ⟨by norm_num [cfgW], by norm_num [cfgW], by norm_num [cfgW],
   C4_frames_within_one_of_floor cfgW 0 0 alwaysOn idEngine (some loggerW) engZero 10
     (by norm_num [cfgW]) (by norm_num [cfgW]) (by norm_num [cfgW])⟩

/-- C1 (amended): the loop writes `target_vel` into every
environment's joint-2 velocity before each engine step, and the
telemetry sample for a step records the post-step state; therefore,
for every engine whose step preserves joint-2 velocities, every
recorded sample in the velocity buffer's column for joint 2 equals
`target_vel` (`1000.0` in the scenario), at every sampled time index
and for every environment instance.  (With the external solver
unconstrained, the claim as stated is refuted: the logged post-step
value is whatever the solver produced.) -/
theorem C1_override_recorded (cfg : SimConfig) (i1 i2 : ℚ) (host : ℕ → Bool)
    (eS : ℕ → EngState → Option EngState) (vw : Bool) (L0 : JointLogger)
    (eng0 : EngState) (fuel : ℕ)
    (hpres : ∀ n s s', eS n s = some s' → ∀ e, s'.vel e 2 = s.vel e 2) :
    ∀ e t,
      t < (run_simulator cfg i1 i2 host eS vw (some L0) eng0 fuel).state.physics_step →
      t < L0.num_steps →
      (run_simulator cfg i1 i2 host eS vw (some L0) eng0 fuel).velAt e t 2 =
        some cfg.target_vel := by
  have hP := @driverLoop_inv cfg host eS vw
    (fun st => ∃ L', st.logger = some L' ∧ L'.num_steps = L0.num_steps ∧
      ∀ e t, t < st.physics_step → t < L0.num_steps →
        L'.velocity_buffer e t 2 = cfg.target_vel)
    (fun st st1 hso hP => by
      obtain ⟨L', hL', hns, hval⟩ := hP
      obtain ⟨eng', he, hlog⟩ := stepOnce_ok_logger hso hL'
      obtain ⟨hps, -, -, -⟩ := stepOnce_ok_clock hso
      refine ⟨(L'.log (st.physics_step : ℤ) eng'.pos eng'.vel).1, hlog, ?_, ?_⟩
      · rw [JointLogger.log_num_steps]; exact hns
      · intro e t ht1 ht2
        have hvel2 : eng'.vel e 2 = cfg.target_vel := by
          rw [hpres st.physics_step _ _ he e]
          simp [overrideVel]
        rw [hps] at ht1
        by_cases hin : st.physics_step < L'.num_steps
        · obtain ⟨-, hv⟩ := JointLogger.log_in_range L' st.physics_step hin eng'.pos eng'.vel
          simp only [hv]
          by_cases hteq : t = st.physics_step
          · subst hteq
            simp [hvel2]
          · rw [if_neg hteq]
            exact hval e t (by omega) ht2
        · rw [JointLogger.log_out_of_range L' (st.physics_step : ℤ) eng'.pos eng'.vel
            (Or.inr (by omega))]
          exact hval e t (by omega) ht2)
    (fun st st1 hso hP => by
      obtain ⟨hps, -, -, -, hlog⟩ := stepOnce_fail_frozen hso
      obtain ⟨L', hL', hns, hval⟩ := hP
      exact ⟨L', hlog.trans hL', hns, by rw [hps]; exact hval⟩)
    fuel 0 (initState (initialJointWrite cfg i1 i2 eng0) (some L0))
    ⟨L0, rfl, rfl, fun e t ht _ => absurd ht (Nat.not_lt_zero t)⟩
  obtain ⟨L', hL', -, hval⟩ := hP
  intro e t ht1 ht2
  simp only [run_simulator] at ht1 ⊢
  simp only [RunResult.velAt, hL', Option.map_some']
  exact congrArg some (hval e t ht1 ht2)

/-- Witness for C1 on the short run `runW` with the
velocity-preserving identity engine: the sample at time index 1 of
environment 0 reads back the override value. -/
theorem C1_override_recorded_witness :
    (∀ n s s', idEngine n s = some s' → ∀ e, s'.vel e 2 = s.vel e 2) ∧
    1 < runW.state.physics_step ∧ 1 < loggerW.num_steps ∧
    runW.velAt 0 1 2 = some cfgW.target_vel := by
  have hpres : ∀ n s s', idEngine n s = some s' → ∀ e, s'.vel e 2 = s.vel e 2 := by
    intro n s s' h e
    simp only [idEngine, Option.some.injEq] at h
    subst h
    rfl
  have hps : 1 < runW.state.physics_step := by rw [runW_physics_step]; omega
  have hns : 1 < loggerW.num_steps := by rw [loggerW_num_steps]; omega
  exact ⟨hpres, hps, hns,
    C1_override_recorded cfgW 0 0 alwaysOn idEngine true loggerW engZero 10 hpres 0 1 hps hns⟩

/-- Counterexample to C1 as stated: against an engine whose step
zeroes joint velocities (a behavior the driver cannot rule out, since
the sample is taken after `sim.step()`), the recorded velocity buffer
column 2 reads 0.0, not 1000.0, at sampled index 0. -/
theorem C1_counterexample_solver_rewrites :
    runZ.exit = ExitKind.normal ∧ runZ.state.physics_step = 1 ∧
    runZ.velAt 0 0 2 = some 0 ∧ ¬ runZ.velAt 0 0 2 = some 1000 := by
  refine ⟨?_, ?_, ?_, ?_⟩ <;>
    norm_num [runZ, run_simulator, driverLoop, stepOnce, initState, initialJointWrite,
      applyOverride, advanceClock, doLog, doFrame, overrideVel, alwaysOn, zeroVelEngine,
      cfgZ, loggerZ_num_steps, JointLogger.log, engZero, RunResult.velAt]

/-- C9: ordering of telemetry.  In every non-fatal run with a logger
attached, the trace restricted to override / engine-step / telemetry
events is exactly, for the completed steps `i = 0, 1, ...` in order:
override write computed with `physics_step = i`, then the engine step
finalizing step `i`, then `log(i)` (the call `log(physics_step - 1)`
made after the increment) — so telemetry for each step is recorded
exactly once, strictly after that step's state is finalized and
strictly before the next iteration's override is computed. -/
theorem C9_telemetry_order (cfg : SimConfig) (i1 i2 : ℚ) (host : ℕ → Bool)
    (eS : ℕ → EngState → Option EngState) (vw : Bool) (L0 : JointLogger)
    (eng0 : EngState) (fuel : ℕ)
    (hexit : (run_simulator cfg i1 i2 host eS vw (some L0) eng0 fuel).exit ≠ ExitKind.fatal) :
    coreTrace (run_simulator cfg i1 i2 host eS vw (some L0) eng0 fuel).state.trace =
      (List.range
          (run_simulator cfg i1 i2 host eS vw (some L0) eng0 fuel).state.physics_step).flatMap
        (fun i => [Event.override i, Event.engineStep i, Event.log (i : ℤ)]) := by
  have hP := @driverLoop_inv_ok cfg host eS vw
    (fun st => st.logger.isSome = true ∧
      coreTrace st.trace = (List.range st.physics_step).flatMap
        (fun i => [Event.override i, Event.engineStep i, Event.log (i : ℤ)]))
    (fun st st1 hso hP => by
      obtain ⟨hsome, htr⟩ := hP
      obtain ⟨L, hL⟩ := Option.isSome_iff_exists.mp hsome
      have hct := stepOnce_ok_coreTrace hso hL
      obtain ⟨eng', -, hlog⟩ := stepOnce_ok_logger hso hL
      obtain ⟨hps, -, -, -⟩ := stepOnce_ok_clock hso
      constructor
      · rw [hlog]; rfl
      · rw [hct, htr, hps, List.range_succ, List.flatMap_append]
        simp)
    fuel 0 (initState (initialJointWrite cfg i1 i2 eng0) (some L0))
    ⟨rfl, by simp [initState, coreTrace]⟩ hexit
  exact hP.2

/-- Witness for C9 on the concrete non-fatal short run `runW`. -/
theorem C9_telemetry_order_witness :
    runW.exit ≠ ExitKind.fatal ∧
    coreTrace runW.state.trace =
      (List.range runW.state.physics_step).flatMap
        (fun i => [Event.override i, Event.engineStep i, Event.log (i : ℤ)]) := by
  have hex : runW.exit ≠ ExitKind.fatal := by
    rw [runW_clock.1]
    decide
  exact ⟨hex, C9_telemetry_order cfgW 0 0 alwaysOn idEngine true loggerW engZero 10 hex⟩

/-- C3 (amended): with `dt = 0.01`, `duration = 1.0`, `fps = 10`, a
full run of the driver loop executes 100 physics steps and captures
exactly 11 frames — one at the first step for the initial deadline
0.0, one at each later deadline 0.1, ..., 0.9, and one at the deadline
1.0 reached exactly on the final step — and the telemetry buffer
capacity is 100. -/
theorem C3_scenario1_eleven_frames :
    run1.state.frames_captured = 11 ∧ run1.state.physics_step = 100 ∧
    logger3.num_steps = 100 ∧ run1.exit = ExitKind.normal := by
  have hf := congrArg ClockState.frames_captured run1_clock.2
  have hp := congrArg ClockState.physics_step run1_clock.2
  simp only [clockOf] at hf hp
  exact ⟨hf, hp, logger3_num_steps, run1_clock.1⟩

/-- Counterexample to C3 as stated: the same run captures 11 frames,
not 10 — the initial deadline 0.0 fires at the first step and the
deadline 1.0 still fires inside the final iteration. -/
theorem C3_counterexample_not_ten :
    run1.state.frames_captured = 11 ∧ ¬ run1.state.frames_captured = 10 := by
  have hf := congrArg ClockState.frames_captured run1_clock.2
  simp only [clockOf] at hf
  exact ⟨hf, by rw [hf]; omega⟩

end GimbalLock
